import Mathlib

/-!
Verification development for the device-authorization flow of superbox.ai
(`server/handlers` auth file).  The Go session store and its handlers are
shallowly embedded: Go maps become association lists over `String` keys,
Unix-second timestamps (`float64` holding whole seconds) become `Int`, each
`time.Now()` read becomes an explicit parameter, and every lock-protected
section becomes a pure function from store to store.  HTTP responses are
modelled by small inductive result types carrying the status code and
`detail` string that the handler would emit.
-/

namespace SuperboxAuth

/-! ### Association-list model of Go maps -/

def lookupA {α : Type} : List (String × α) → String → Option α
  | [], _ => none
  | (k, v) :: m, key => if k = key then some v else lookupA m key

def eraseA {α : Type} : List (String × α) → String → List (String × α)
  | [], _ => []
  | (k, v) :: m, key => if k = key then eraseA m key else (k, v) :: eraseA m key

def insertA {α : Type} (m : List (String × α)) (key : String) (v : α) : List (String × α) :=
  (key, v) :: eraseA m key

/-! ### Data model: `models.DeviceSession` -/

structure DeviceSession where
  deviceCode : String
  userCode : String
  normalizedUserCode : String
  provider : String
  oauthState : String
  status : String
  createdAt : Int
  expiresAt : Int
  completedAt : Int
  lastTouched : Int
  tokens : List (String × String)
  sessionError : String
deriving DecidableEq, Repr

/-- The package-level store: `deviceSessions`, `userIndex`, `stateIndex`. -/
structure Store where
  deviceSessions : List (String × DeviceSession)
  userIndex : List (String × String)
  stateIndex : List (String × String)
deriving DecidableEq, Repr

def emptyStore : Store := ⟨[], [], []⟩

/-- `deviceSessionTTL = 600` seconds. -/
def deviceSessionTTL : Int := 600

/-- `devicePollInterval = 5` seconds. -/
def devicePollInterval : Int := 5

/-! ### Code generator: `normalizeCode`

Go: `strings.ToUpper(strings.ReplaceAll(strings.ReplaceAll(code, "-", ""), " ", ""))`.
`ReplaceAll s c ""` for the single characters `"-"` and `" "` deletes every
occurrence of that character; `strings.ToUpper` on the ASCII range maps each
`a`..`z` to `A`..`Z` and leaves all other characters unchanged, which is
exactly `Char.toUpper`. -/

def stripChar : List Char → Char → List Char
  | [], _ => []
  | c :: cs, d => if c = d then stripChar cs d else c :: stripChar cs d

def normalizeChars (cs : List Char) : List Char :=
  (stripChar (stripChar cs '-') ' ').map Char.toUpper

def normalizeCode (code : String) : String :=
  String.mk (normalizeChars code.data)

/-- Per-character model of `strings.ToLower` on the ASCII range. -/
def lowerStr (s : String) : String :=
  String.mk (s.data.map Char.toLower)

/-! ### Session store operations -/

/-- `storeSession`: insert into the primary map and both secondary indices. -/
def storeSession (st : Store) (session : DeviceSession) : Store :=
  { deviceSessions := insertA st.deviceSessions session.deviceCode session
    userIndex := insertA st.userIndex session.normalizedUserCode session.deviceCode
    stateIndex := insertA st.stateIndex session.oauthState session.deviceCode }

/-- `removeSession`: delete from the primary map and both indices, keyed by
the stored session's own fields; no-op when the device code is unknown. -/
def removeSession (st : Store) (deviceCode : String) : Store :=
  match lookupA st.deviceSessions deviceCode with
  | none => st
  | some session =>
    { deviceSessions := eraseA st.deviceSessions deviceCode
      userIndex := eraseA st.userIndex session.normalizedUserCode
      stateIndex := eraseA st.stateIndex session.oauthState }

/-- `getSessionCopy`: read-only snapshot. -/
def getSessionCopy (st : Store) (deviceCode : String) : Option DeviceSession :=
  lookupA st.deviceSessions deviceCode

/-- `markSession`: set status and `completedAt` (the clock read inside the Go
function is the `now` parameter), record the message when non-empty, and
delete the state-index entry. -/
def markSession (st : Store) (deviceCode status message : String) (now : Int) : Store :=
  match lookupA st.deviceSessions deviceCode with
  | none => st
  | some session =>
    let session' := { session with
      status := status
      completedAt := now
      sessionError := if message ≠ "" then message else session.sessionError }
    { deviceSessions := insertA st.deviceSessions deviceCode session'
      userIndex := st.userIndex
      stateIndex := eraseA st.stateIndex session.oauthState }

/-- `setSessionTokens`: set status `complete`, attach the bundle, set
`completedAt`, and delete the state-index entry. -/
def setSessionTokens (st : Store) (deviceCode : String)
    (tokens : List (String × String)) (now : Int) : Store :=
  match lookupA st.deviceSessions deviceCode with
  | none => st
  | some session =>
    let session' := { session with
      status := "complete"
      tokens := tokens
      completedAt := now }
    { deviceSessions := insertA st.deviceSessions deviceCode session'
      userIndex := st.userIndex
      stateIndex := eraseA st.stateIndex session.oauthState }

/-- `findState`: state-index lookup (Go returns `""` when absent). -/
def findState (st : Store) (oauthState : String) : Option String :=
  lookupA st.stateIndex oauthState

/-- The sweep condition of `sessionCleanup`: a session is collected when
`expiresAt <= now || (terminal && now - completedAt > 120)`, where a zero
`completedAt` defaults to `expiresAt`. -/
def sweepCond (s : DeviceSession) (now : Int) : Bool :=
  let completedAt := if s.completedAt = 0 then s.expiresAt else s.completedAt
  decide (s.expiresAt ≤ now) ||
    ((s.status == "complete" || s.status == "error" || s.status == "expired") &&
      decide (now - completedAt > 120))

/-- `sessionCleanup`: collect the codes of swept sessions under the lock,
then remove each one. -/
def sessionCleanup (st : Store) (now : Int) : Store :=
  let expiredCodes := (st.deviceSessions.filter (fun p => sweepCond p.2 now)).map (·.1)
  expiredCodes.foldl removeSession st

/-! ### Handler result types

Each constructor records the HTTP status code and the `detail` (or page
message) the Go handler writes for that branch. -/

inductive PollResult where
  | unknownDevice
  | expiredGone
  | pendingResp
  | okTokens (tokens : List (String × String))
  | errorResp (detail : String)
  | invalidState
deriving DecidableEq, Repr

def PollResult.httpStatus : PollResult → Nat
  | .unknownDevice => 404
  | .expiredGone => 410
  | .pendingResp => 202
  | .okTokens _ => 200
  | .errorResp _ => 400
  | .invalidState => 400

def PollResult.detail : PollResult → String
  | .unknownDevice => "Unknown device code"
  | .expiredGone => "Device authorization expired"
  | .pendingResp => ""
  | .okTokens _ => ""
  | .errorResp m => m
  | .invalidState => "Invalid device session state"

inductive StartResult where
  | unsupportedProvider
  | notConfigured
  | started (deviceCode userCode : String) (interval expiresIn : Int)
deriving DecidableEq, Repr

def StartResult.httpStatus : StartResult → Nat
  | .unsupportedProvider => 400
  | .notConfigured => 500
  | .started _ _ _ _ => 200

inductive SubmitResult where
  | formError (message : String)
  | redirect (provider oauthState : String)
deriving DecidableEq, Repr

/-! ### Handlers -/

/-- The session literal built by `deviceStart` once the provider checks
pass: status `pending`, `CreatedAt = now`, `ExpiresAt = now + TTL`; the Go
struct's remaining fields take their zero values. -/
def newSession (provider deviceCode userCode oauthState : String) (now : Int) :
    DeviceSession :=
  { deviceCode := deviceCode
    userCode := userCode
    normalizedUserCode := normalizeCode userCode
    provider := provider
    oauthState := oauthState
    status := "pending"
    createdAt := now
    expiresAt := now + deviceSessionTTL
    completedAt := 0
    lastTouched := 0
    tokens := []
    sessionError := "" }

/-- `deviceStart`.  `now1` is the clock read inside the initial
`sessionCleanup`, `now2` the handler's own read.  The random
`deviceCode`/`userCode`/`state` draws are parameters; `googleConf`/`githubConf`
say whether that provider's client credentials are configured. -/
def deviceStart (st : Store) (provider : String) (now1 now2 : Int)
    (deviceCode userCode oauthState : String) (googleConf githubConf : Bool) :
    Store × StartResult :=
  let st1 := sessionCleanup st now1
  let p := lowerStr provider
  if p ≠ "google" ∧ p ≠ "github" then
    (st1, .unsupportedProvider)
  else if (p = "google" ∧ ¬googleConf) ∨ (p = "github" ∧ ¬githubConf) then
    (st1, .notConfigured)
  else
    (storeSession st1 (newSession p deviceCode userCode oauthState now2),
     .started deviceCode userCode devicePollInterval deviceSessionTTL)

/-- `devicePoll`.  `now1` is the clock read inside the initial
`sessionCleanup`, `now2` the handler's own read (also used for the
`markSession` call in the expiry branch, whose timestamp is erased by the
immediately following `removeSession`). -/
def devicePoll (st : Store) (deviceCode : String) (now1 now2 : Int) :
    Store × PollResult :=
  let st1 := sessionCleanup st now1
  match getSessionCopy st1 deviceCode with
  | none => (st1, .unknownDevice)
  | some session =>
    if session.expiresAt ≤ now2 ∧ session.status = "pending" then
      (removeSession (markSession st1 deviceCode "expired" "" now2) deviceCode,
       .expiredGone)
    else if session.status = "pending" ∨ session.status = "authorizing" then
      (st1, .pendingResp)
    else if session.status = "complete" then
      (removeSession st1 deviceCode, .okTokens session.tokens)
    else if session.status = "error" then
      (removeSession st1 deviceCode,
       .errorResp (if session.sessionError = "" then "Authorization failed"
                   else session.sessionError))
    else if session.status = "expired" then
      (removeSession st1 deviceCode, .expiredGone)
    else
      (removeSession st1 deviceCode, .invalidState)

/-- The in-place mutations of the locked section of `deviceSubmit`: flip to
`expired` when past the deadline, stamp `lastTouched`, promote `pending` to
`authorizing`. -/
def touchSession (session : DeviceSession) (now : Int) : DeviceSession :=
  let s1 := if session.expiresAt ≤ now then { session with status := "expired" }
            else session
  let s2 := { s1 with lastTouched := now }
  if s2.status = "pending" then { s2 with status := "authorizing" } else s2

/-- The mutex-protected section of `deviceSubmit` (lines between `Lock` and
`Unlock`): look the code up in `userIndex` (Go yields `""` when absent),
fetch the session, apply `touchSession`, and write it back.  Returns the
updated store, the device code, and the session value the handler keeps
using after releasing the lock. -/
def deviceSubmitLocked (st : Store) (normalized : String) (now : Int) :
    Store × String × Option DeviceSession :=
  let deviceCode := (lookupA st.userIndex normalized).getD ""
  if deviceCode = "" then (st, deviceCode, none)
  else
    match lookupA st.deviceSessions deviceCode with
    | none => (st, deviceCode, none)
    | some session =>
      let s3 := touchSession session now
      ({ st with deviceSessions := insertA st.deviceSessions deviceCode s3 },
       deviceCode, some s3)

/-- `deviceSubmit`: the full handler (no cleanup sweep on this path). -/
def deviceSubmit (st : Store) (code : String) (now : Int)
    (googleConf githubConf : Bool) : Store × SubmitResult :=
  if code = "" then (st, .formError "Device code is required")
  else
    let normalized := normalizeCode code
    match deviceSubmitLocked st normalized now with
    | (st1, deviceCode, sessionOpt) =>
      match sessionOpt with
      | none => (st1, .formError "Invalid or expired device code. Please try again.")
      | some session =>
        if session.status = "expired" then
          (removeSession st1 deviceCode,
           .formError "Device code has expired. Restart the login from the CLI.")
        else if session.status = "complete" then
          (st1, .formError "This code has already been used. Return to the CLI.")
        else if session.provider = "google" then
          if ¬googleConf then
            (markSession st1 deviceCode "error" "Google OAuth not configured" now,
             .formError "Google login is not available. Contact support.")
          else
            (st1, .redirect "google" session.oauthState)
        else if session.provider = "github" then
          if ¬githubConf then
            (markSession st1 deviceCode "error" "GitHub OAuth not configured" now,
             .formError "GitHub login is not available. Contact support.")
          else
            (st1, .redirect "github" session.oauthState)
        else
          (markSession st1 deviceCode "error" "Unsupported provider" now,
           .formError "Unsupported provider")

/-! ### Lemmas: association-list maps -/

theorem lookupA_eraseA {α : Type} (m : List (String × α)) (k key : String) :
    lookupA (eraseA m k) key = if key = k then none else lookupA m key := by
  induction m with
  | nil => simp [eraseA, lookupA]
  | cons a m ih =>
    obtain ⟨k', v⟩ := a
    simp only [eraseA]
    by_cases h1 : k' = k
    · rw [if_pos h1, ih]
      by_cases h2 : key = k
      · simp [h2]
      · have h3 : k' ≠ key := fun h => h2 ((h.symm.trans h1))
        simp [lookupA, h3, h2]
    · rw [if_neg h1]
      by_cases h2 : key = k
      · have h3 : k' ≠ key := fun h => h1 (h.trans h2)
        subst h2
        simp [lookupA, h3, ih]
      · by_cases h3 : k' = key <;> simp [lookupA, h3, ih, h2]

theorem lookupA_insertA {α : Type} (m : List (String × α)) (k key : String) (v : α) :
    lookupA (insertA m k v) key = if k = key then some v else lookupA m key := by
  by_cases h : k = key
  · simp [insertA, lookupA, h]
  · have h' : ¬ key = k := fun hh => h hh.symm
    simp [insertA, lookupA, h, lookupA_eraseA, h']

theorem lookupA_mem {α : Type} {m : List (String × α)} {k : String} {v : α}
    (h : lookupA m k = some v) : (k, v) ∈ m := by
  induction m with
  | nil => simp [lookupA] at h
  | cons a m ih =>
    obtain ⟨k', v'⟩ := a
    simp only [lookupA] at h
    by_cases hak : k' = k
    · rw [if_pos hak] at h
      injection h with h
      simp [hak, h]
    · rw [if_neg hak] at h
      exact List.mem_cons_of_mem _ (ih h)

theorem mem_lookupA_of_nodup {α : Type} {m : List (String × α)} {k : String} {v : α}
    (hnd : (m.map Prod.fst).Nodup) (h : (k, v) ∈ m) : lookupA m k = some v := by
  induction m with
  | nil => simp at h
  | cons a m ih =>
    simp only [List.map_cons, List.nodup_cons] at hnd
    rcases List.mem_cons.mp h with h1 | h2
    · subst h1
      simp [lookupA]
    · have hk : a.1 ≠ k := by
        intro hak
        exact hnd.1 (hak ▸ (List.mem_map.mpr ⟨(k, v), h2, rfl⟩))
      simp [lookupA, hk, ih hnd.2 h2]

/-! ### Lemmas: removeSession and the cleanup sweep -/

theorem sessions_removeSession (st : Store) (d dc : String) :
    lookupA (removeSession st d).deviceSessions dc =
      if dc = d then none else lookupA st.deviceSessions dc := by
  unfold removeSession
  cases hd : lookupA st.deviceSessions d with
  | none =>
    by_cases h : dc = d
    · simp [h, hd]
    · simp [h]
  | some s => simp [lookupA_eraseA]

theorem userIndex_removeSession_none {st : Store} {k : String} (d : String)
    (h : lookupA st.userIndex k = none) :
    lookupA (removeSession st d).userIndex k = none := by
  unfold removeSession
  cases hd : lookupA st.deviceSessions d with
  | none => exact h
  | some s =>
    simp only [lookupA_eraseA]
    split <;> simp [h]

theorem stateIndex_removeSession_none {st : Store} {k : String} (d : String)
    (h : lookupA st.stateIndex k = none) :
    lookupA (removeSession st d).stateIndex k = none := by
  unfold removeSession
  cases hd : lookupA st.deviceSessions d with
  | none => exact h
  | some s =>
    simp only [lookupA_eraseA]
    split <;> simp [h]

theorem sessions_foldl_remove (L : List String) (st : Store) (dc : String) :
    lookupA ((L.foldl removeSession st).deviceSessions) dc =
      if dc ∈ L then none else lookupA st.deviceSessions dc := by
  induction L generalizing st with
  | nil => simp
  | cons a L ih =>
    simp only [List.foldl_cons, ih, sessions_removeSession, List.mem_cons]
    by_cases hdc : dc ∈ L
    · simp [hdc]
    · by_cases ha : dc = a
      · simp [ha, hdc]
      · simp [ha, hdc]

theorem userIndex_foldl_remove_none {st : Store} {k : String} (L : List String)
    (h : lookupA st.userIndex k = none) :
    lookupA ((L.foldl removeSession st).userIndex) k = none := by
  induction L generalizing st with
  | nil => exact h
  | cons a L ih => exact ih (userIndex_removeSession_none a h)

theorem stateIndex_foldl_remove_none {st : Store} {k : String} (L : List String)
    (h : lookupA st.stateIndex k = none) :
    lookupA ((L.foldl removeSession st).stateIndex) k = none := by
  induction L generalizing st with
  | nil => exact h
  | cons a L ih => exact ih (stateIndex_removeSession_none a h)

/-- Well-formedness: the primary map has pairwise-distinct device codes
(automatic for a Go map; an invariant of the list representation). -/
def WF (st : Store) : Prop := (st.deviceSessions.map Prod.fst).Nodup

/-- The list of codes collected by the sweep loop of `sessionCleanup`. -/
def sweptCodes (st : Store) (now : Int) : List String :=
  (st.deviceSessions.filter (fun p => sweepCond p.2 now)).map (·.1)

theorem sessionCleanup_eq (st : Store) (now : Int) :
    sessionCleanup st now = (sweptCodes st now).foldl removeSession st := rfl

theorem mem_sweptCodes {st : Store} {dc : String} {s : DeviceSession} {now : Int}
    (h : lookupA st.deviceSessions dc = some s) (hc : sweepCond s now = true) :
    dc ∈ sweptCodes st now :=
  List.mem_map.mpr ⟨(dc, s), List.mem_filter.mpr ⟨lookupA_mem h, hc⟩, rfl⟩

theorem not_mem_sweptCodes {st : Store} {dc : String} {s : DeviceSession} {now : Int}
    (hwf : WF st) (h : lookupA st.deviceSessions dc = some s)
    (hc : sweepCond s now = false) : dc ∉ sweptCodes st now := by
  intro hmem
  obtain ⟨⟨dc', s'⟩, hmf, he⟩ := List.mem_map.mp hmem
  obtain ⟨hm, hc'⟩ := List.mem_filter.mp hmf
  simp only at he
  subst he
  have hl := mem_lookupA_of_nodup hwf hm
  rw [h] at hl
  injection hl with hl
  simp only at hc'
  rw [← hl] at hc'
  rw [hc'] at hc
  exact Bool.true_eq_false.mp hc

theorem cleanup_lookup_surviving {st : Store} {dc : String} {s : DeviceSession} {now : Int}
    (hwf : WF st) (h : lookupA st.deviceSessions dc = some s)
    (hc : sweepCond s now = false) :
    lookupA (sessionCleanup st now).deviceSessions dc = some s := by
  rw [sessionCleanup_eq, sessions_foldl_remove, if_neg (not_mem_sweptCodes hwf h hc)]
  exact h

theorem foldl_remove_erases {L : List String} {st : Store} {dc : String}
    {s : DeviceSession} (hL : dc ∈ L) (h : lookupA st.deviceSessions dc = some s) :
    lookupA (L.foldl removeSession st).deviceSessions dc = none ∧
    lookupA (L.foldl removeSession st).userIndex s.normalizedUserCode = none ∧
    lookupA (L.foldl removeSession st).stateIndex s.oauthState = none := by
  induction L generalizing st with
  | nil => simp at hL
  | cons a L ih =>
    by_cases ha : a = dc
    · subst ha
      have hs : lookupA (removeSession st a).deviceSessions a = none := by
        rw [sessions_removeSession]
        simp
      have hu : lookupA (removeSession st a).userIndex s.normalizedUserCode = none := by
        simp only [removeSession, h, lookupA_eraseA]
        simp
      have hst : lookupA (removeSession st a).stateIndex s.oauthState = none := by
        simp only [removeSession, h, lookupA_eraseA]
        simp
      refine ⟨?_, userIndex_foldl_remove_none L hu, stateIndex_foldl_remove_none L hst⟩
      rw [List.foldl_cons, sessions_foldl_remove]
      split
      · rfl
      · exact hs
    · have hL' : dc ∈ L := by
        rcases List.mem_cons.mp hL with h1 | h1
        · exact absurd h1.symm ha
        · exact h1
      have h' : lookupA (removeSession st a).deviceSessions dc = some s := by
        rw [sessions_removeSession, if_neg (fun hh => ha hh.symm)]
        exact h
      exact ih hL' h'

theorem cleanup_removes {st : Store} {dc : String} {s : DeviceSession} {now : Int}
    (h : lookupA st.deviceSessions dc = some s) (hc : sweepCond s now = true) :
    lookupA (sessionCleanup st now).deviceSessions dc = none ∧
    lookupA (sessionCleanup st now).userIndex s.normalizedUserCode = none ∧
    lookupA (sessionCleanup st now).stateIndex s.oauthState = none := by
  rw [sessionCleanup_eq]
  exact foldl_remove_erases (mem_sweptCodes h hc) h

theorem cleanup_none {st : Store} {dc : String} (now : Int)
    (h : lookupA st.deviceSessions dc = none) :
    lookupA (sessionCleanup st now).deviceSessions dc = none := by
  rw [sessionCleanup_eq, sessions_foldl_remove]
  split <;> simp [h]

theorem cleanup_sessions_sub {st : Store} {dc : String} {s : DeviceSession} {now : Int}
    (h : lookupA (sessionCleanup st now).deviceSessions dc = some s) :
    lookupA st.deviceSessions dc = some s := by
  rw [sessionCleanup_eq, sessions_foldl_remove] at h
  by_cases hm : dc ∈ sweptCodes st now
  · rw [if_pos hm] at h
    exact absurd h (by simp)
  · rwa [if_neg hm] at h

/-- The expiry branch of `devicePoll` (`markSession` then `removeSession`)
erases the session from the primary map and from both indices. -/
theorem mark_remove_erases {st : Store} {dc : String} {s : DeviceSession}
    (h : lookupA st.deviceSessions dc = some s) (status message : String) (now : Int) :
    lookupA (removeSession (markSession st dc status message now) dc).deviceSessions dc
        = none ∧
    lookupA (removeSession (markSession st dc status message now) dc).userIndex
        s.normalizedUserCode = none ∧
    lookupA (removeSession (markSession st dc status message now) dc).stateIndex
        s.oauthState = none := by
  simp only [markSession, h]
  refine ⟨by rw [sessions_removeSession]; simp, ?_, ?_⟩
  · simp only [removeSession, lookupA_insertA, if_pos rfl, lookupA_eraseA]
    simp [lookupA_eraseA]
  · simp only [removeSession, lookupA_insertA, if_pos rfl, lookupA_eraseA]
    simp [lookupA_eraseA]

/-- A poll for a device code absent from the store answers 404 (after the
opportunistic sweep, which cannot resurrect it). -/
theorem poll_unknown_of_cleanup_absent {st : Store} {dc : String} (now1 now2 : Int)
    (h : lookupA (sessionCleanup st now1).deviceSessions dc = none) :
    devicePoll st dc now1 now2 = (sessionCleanup st now1, PollResult.unknownDevice) := by
  simp only [devicePoll, getSessionCopy, h]

theorem poll_unknown_of_absent {st : Store} {dc : String} (now1 now2 : Int)
    (h : lookupA st.deviceSessions dc = none) :
    devicePoll st dc now1 now2 = (sessionCleanup st now1, PollResult.unknownDevice) :=
  poll_unknown_of_cleanup_absent now1 now2 (cleanup_none now1 h)

/-! ### Concrete sessions and stores for witnesses and counterexamples -/

def sessionOf (status : String) (createdAt expiresAt completedAt : Int)
    (tokens : List (String × String)) : DeviceSession :=
  { deviceCode := "dc1"
    userCode := "AB12-CD34"
    normalizedUserCode := "AB12CD34"
    provider := "google"
    oauthState := "st1"
    status := status
    createdAt := createdAt
    expiresAt := expiresAt
    completedAt := completedAt
    lastTouched := 0
    tokens := tokens
    sessionError := "" }

def storeOf (s : DeviceSession) : Store :=
  { deviceSessions := [(s.deviceCode, s)]
    userIndex := [(s.normalizedUserCode, s.deviceCode)]
    stateIndex := [(s.oauthState, s.deviceCode)] }

/-! ### C1 -/

/-- C1 (amended): for a session whose status is `complete` and which the
opportunistic sweep at the top of the poll does not collect (its
`sweepCond` is false at the sweep's clock reading, i.e. `expiresAt` is
still in the future and `completedAt` is within the 120-second grace
window), the first poll with its device code answers HTTP 200 carrying the
stored token bundle and removes the session from the primary map and both
secondary indices; any subsequent poll with the same device code answers
HTTP 404 with detail "Unknown device code". -/
theorem C1_complete_consumed_once
    (st : Store) (dc : String) (s : DeviceSession) (now1 now2 now1' now2' : Int)
    (hwf : WF st)
    (h : lookupA st.deviceSessions dc = some s)
    (hstatus : s.status = "complete")
    (hsweep : sweepCond s now1 = false) :
    (devicePoll st dc now1 now2).2 = PollResult.okTokens s.tokens ∧
    (devicePoll st dc now1 now2).2.httpStatus = 200 ∧
    lookupA (devicePoll st dc now1 now2).1.deviceSessions dc = none ∧
    lookupA (devicePoll st dc now1 now2).1.userIndex s.normalizedUserCode = none ∧
    lookupA (devicePoll st dc now1 now2).1.stateIndex s.oauthState = none ∧
    (devicePoll (devicePoll st dc now1 now2).1 dc now1' now2').2
        = PollResult.unknownDevice ∧
    PollResult.unknownDevice.httpStatus = 404 ∧
    PollResult.unknownDevice.detail = "Unknown device code" := by
  have hsurv : lookupA (sessionCleanup st now1).deviceSessions dc = some s :=
    cleanup_lookup_surviving hwf h hsweep
  have hpoll : devicePoll st dc now1 now2 =
      (removeSession (sessionCleanup st now1) dc, PollResult.okTokens s.tokens) := by
    simp only [devicePoll, getSessionCopy, hsurv, hstatus]
    simp
  have hrm1 : lookupA (removeSession (sessionCleanup st now1) dc).deviceSessions dc
      = none := by
    rw [sessions_removeSession]
    simp
  have hrm2 : lookupA (removeSession (sessionCleanup st now1) dc).userIndex
      s.normalizedUserCode = none := by
    simp only [removeSession, hsurv, lookupA_eraseA]
    simp
  have hrm3 : lookupA (removeSession (sessionCleanup st now1) dc).stateIndex
      s.oauthState = none := by
    simp only [removeSession, hsurv, lookupA_eraseA]
    simp
  rw [hpoll]
  refine ⟨rfl, rfl, hrm1, hrm2, hrm3, ?_, rfl, rfl⟩
  rw [poll_unknown_of_absent now1' now2' hrm1]

/-- C1 witness: a concrete completed session polled inside the grace
window. -/
theorem C1_complete_consumed_once_witness :
    (devicePoll (storeOf (sessionOf "complete" 0 600 500 [("id_token", "tok")]))
        "dc1" 550 550).2
      = PollResult.okTokens [("id_token", "tok")] ∧
    (devicePoll (devicePoll
        (storeOf (sessionOf "complete" 0 600 500 [("id_token", "tok")]))
        "dc1" 550 550).1 "dc1" 560 560).2 = PollResult.unknownDevice := by
  have h := C1_complete_consumed_once
    (storeOf (sessionOf "complete" 0 600 500 [("id_token", "tok")]))
    "dc1" (sessionOf "complete" 0 600 500 [("id_token", "tok")]) 550 550 560 560
    (by unfold WF; decide) (by decide) (by decide) (by decide)
  exact ⟨h.1, h.2.2.2.2.2.1⟩

/-- C1 counterexample: the claim as stated fails — a session whose status is
`complete` but whose grace window has lapsed (`now - completedAt > 120`) is
collected by the sweep that runs at the top of the poll, so the *first* poll
answers 404, not 200 with the bundle. -/
theorem C1_counterexample :
    (devicePoll (storeOf (sessionOf "complete" 0 600 100 [("id_token", "tok")]))
        "dc1" 300 300).2 = PollResult.unknownDevice ∧
    PollResult.unknownDevice.httpStatus = 404 ∧
    (devicePoll (storeOf (sessionOf "complete" 0 600 100 [("id_token", "tok")]))
        "dc1" 300 300).2 ≠ PollResult.okTokens [("id_token", "tok")] := by
  refine ⟨by decide, rfl, by decide⟩

/-! ### C2 -/

theorem cleanup_removed_iff {st : Store} {dc : String} {s : DeviceSession} {now : Int}
    (hwf : WF st) (h : lookupA st.deviceSessions dc = some s) :
    lookupA (sessionCleanup st now).deviceSessions dc = none ↔ sweepCond s now = true := by
  cases hc : sweepCond s now with
  | true => simp [(cleanup_removes h hc).1]
  | false => simp [cleanup_lookup_surviving hwf h hc]

/-- C2 (amended): the expiry sweep removes a pending session exactly when
its `expiresAt` has passed; it removes a terminal session
(complete/error/expired) exactly when its `expiresAt` has passed **or** its
`completedAt` (defaulted to `expiresAt` when zero) is more than 120 seconds
in the past.  The 120-second grace window protects a just-completed session
only while its `expiresAt` is also still in the future: a complete session
with `expiresAt > now` and `now - completedAt ≤ 120` survives the sweep. -/
theorem C2_sweep_characterization
    (st : Store) (dc : String) (s : DeviceSession) (now : Int)
    (hwf : WF st) (h : lookupA st.deviceSessions dc = some s) :
    (s.status = "pending" →
      (lookupA (sessionCleanup st now).deviceSessions dc = none ↔ s.expiresAt ≤ now)) ∧
    ((s.status = "complete" ∨ s.status = "error" ∨ s.status = "expired") →
      (lookupA (sessionCleanup st now).deviceSessions dc = none ↔
        (s.expiresAt ≤ now ∨
         now - (if s.completedAt = 0 then s.expiresAt else s.completedAt) > 120))) ∧
    (s.status = "complete" → now < s.expiresAt → s.completedAt ≠ 0 →
      now - s.completedAt ≤ 120 →
      lookupA (sessionCleanup st now).deviceSessions dc = some s) := by
  refine ⟨?_, ?_, ?_⟩
  · intro hp
    rw [cleanup_removed_iff hwf h]
    simp [sweepCond, hp]
  · intro ht
    rw [cleanup_removed_iff hwf h]
    rcases ht with ht | ht | ht <;> simp [sweepCond, ht]
  · intro hc he hz hg
    refine cleanup_lookup_surviving hwf h ?_
    simp [sweepCond, hc, hz]
    constructor
    · omega
    · omega

/-- C2 witness: a pending session past its deadline is swept; a complete
session inside the grace window with a live deadline is kept. -/
theorem C2_sweep_characterization_witness :
    lookupA (sessionCleanup (storeOf (sessionOf "pending" 0 600 0 [])) 600).deviceSessions
        "dc1" = none ∧
    lookupA (sessionCleanup (storeOf (sessionOf "complete" 0 600 500 [])) 550).deviceSessions
        "dc1" = some (sessionOf "complete" 0 600 500 []) := by
  have h1 := C2_sweep_characterization (storeOf (sessionOf "pending" 0 600 0 []))
    "dc1" (sessionOf "pending" 0 600 0 []) 600 (by unfold WF; decide) (by decide)
  have h2 := C2_sweep_characterization (storeOf (sessionOf "complete" 0 600 500 []))
    "dc1" (sessionOf "complete" 0 600 500 []) 550 (by unfold WF; decide) (by decide)
  exact ⟨(h1.1 (by decide)).mpr (by decide),
         h2.2.2 (by decide) (by decide) (by decide) (by decide)⟩

/-- C2 counterexample: the claim as stated fails — a `complete` session
whose `completedAt` is only 60 seconds old (inside the claimed
unconditional grace window) is nevertheless removed by the sweep because
its `expiresAt` has passed. -/
theorem C2_counterexample :
    lookupA (sessionCleanup (storeOf (sessionOf "complete" 0 600 590 [("id_token", "t")]))
        650).deviceSessions "dc1" = none ∧
    (650 : Int) - 590 ≤ 120 := by
  exact ⟨by decide, by decide⟩

/-! ### C3 -/

/-- C3 (amended): polling a pending session whose `expiresAt` has passed
removes it from the primary map (the device-code index) and from both
secondary indices, and a subsequent poll with the same device code answers
HTTP 404.  The response to the poll itself is HTTP 410 ("gone") only when
the deadline falls strictly between the sweep's clock reading (`now1`) and
the poll handler's own reading (`now2`); when `expiresAt ≤ now1` — in
particular whenever both reads of the clock agree — the opportunistic sweep
at the top of the handler removes the session first and the poll answers
HTTP 404 "Unknown device code" instead. -/
theorem C3_expired_pending_poll
    (st : Store) (dc : String) (s : DeviceSession) (now1 now2 now1' now2' : Int)
    (hwf : WF st)
    (h : lookupA st.deviceSessions dc = some s)
    (hp : s.status = "pending")
    (hexp : s.expiresAt ≤ now2) :
    lookupA (devicePoll st dc now1 now2).1.deviceSessions dc = none ∧
    lookupA (devicePoll st dc now1 now2).1.userIndex s.normalizedUserCode = none ∧
    lookupA (devicePoll st dc now1 now2).1.stateIndex s.oauthState = none ∧
    (devicePoll st dc now1 now2).2 =
      (if s.expiresAt ≤ now1 then PollResult.unknownDevice else PollResult.expiredGone) ∧
    (devicePoll (devicePoll st dc now1 now2).1 dc now1' now2').2
        = PollResult.unknownDevice ∧
    PollResult.expiredGone.httpStatus = 410 ∧
    PollResult.unknownDevice.httpStatus = 404 := by
  by_cases hcl : s.expiresAt ≤ now1
  · have hc : sweepCond s now1 = true := by
      simp [sweepCond, hcl]
    obtain ⟨h1, h2, h3⟩ := @cleanup_removes st dc s now1 h hc
    have hpoll : devicePoll st dc now1 now2 =
        (sessionCleanup st now1, PollResult.unknownDevice) :=
      poll_unknown_of_cleanup_absent now1 now2 h1
    rw [hpoll]
    exact ⟨h1, h2, h3, by rw [if_pos hcl], by rw [poll_unknown_of_absent now1' now2' h1],
           rfl, rfl⟩
  · have hc : sweepCond s now1 = false := by
      simp [sweepCond, hp, hcl]
    have hsurv : lookupA (sessionCleanup st now1).deviceSessions dc = some s :=
      cleanup_lookup_surviving hwf h hc
    have hpoll : devicePoll st dc now1 now2 =
        (removeSession (markSession (sessionCleanup st now1) dc "expired" "" now2) dc,
         PollResult.expiredGone) := by
      simp only [devicePoll, getSessionCopy, hsurv]
      simp [hp, hexp]
    obtain ⟨h1, h2, h3⟩ := mark_remove_erases hsurv "expired" "" now2
    rw [hpoll]
    exact ⟨h1, h2, h3, by rw [if_neg hcl], by rw [poll_unknown_of_absent now1' now2' h1],
           rfl, rfl⟩

/-- C3 witness: deadline 600, sweep read at 599, handler read at 600 — the
one schedule on which the 410 branch fires — followed by a second poll. -/
theorem C3_expired_pending_poll_witness :
    lookupA (devicePoll (storeOf (sessionOf "pending" 0 600 0 []))
        "dc1" 599 600).1.deviceSessions "dc1" = none ∧
    (devicePoll (storeOf (sessionOf "pending" 0 600 0 [])) "dc1" 599 600).2
        = PollResult.expiredGone := by
  have h := C3_expired_pending_poll (storeOf (sessionOf "pending" 0 600 0 []))
    "dc1" (sessionOf "pending" 0 600 0 []) 599 600 610 610
    (by unfold WF; decide) (by decide) (by decide) (by decide)
  refine ⟨h.1, ?_⟩
  rw [h.2.2.2.1]
  decide

/-- C3 counterexample: the claim as stated fails — when the sweep's clock
reading already sees the deadline (`expiresAt ≤ now1`, the usual case since
both reads happen within the same request), the poll answers HTTP 404, not
the claimed 410. -/
theorem C3_counterexample :
    (devicePoll (storeOf (sessionOf "pending" 0 600 0 [])) "dc1" 600 600).2
        = PollResult.unknownDevice ∧
    PollResult.unknownDevice.httpStatus ≠ 410 := by
  exact ⟨by decide, by decide⟩

/-! ### C4 -/

/-- C4 (amended): submitting a user code that is *unknown* re-renders the
entry form with an error message and leaves the session store byte-for-byte
unchanged.  Submitting a user code that resolves to a session whose
`expiresAt` has passed also re-renders the form with an error message, but
does **not** leave the store unchanged: the handler sets the session's
status to `expired` and stamps `lastTouched` under the lock, then removes
the session from the primary map and both indices. -/
theorem C4_submit_unknown_or_expired
    (st : Store) (code dc : String) (s : DeviceSession) (now : Int)
    (googleConf githubConf : Bool)
    (hcode : code ≠ "") :
    (lookupA st.userIndex (normalizeCode code) = none →
      deviceSubmit st code now googleConf githubConf =
        (st, SubmitResult.formError "Invalid or expired device code. Please try again.")) ∧
    (lookupA st.userIndex (normalizeCode code) = some dc → dc ≠ "" →
      lookupA st.deviceSessions dc = some s → s.expiresAt ≤ now →
      (deviceSubmit st code now googleConf githubConf).2 =
        SubmitResult.formError "Device code has expired. Restart the login from the CLI." ∧
      lookupA (deviceSubmit st code now googleConf githubConf).1.deviceSessions dc = none ∧
      lookupA (deviceSubmit st code now googleConf githubConf).1.userIndex
          s.normalizedUserCode = none ∧
      lookupA (deviceSubmit st code now googleConf githubConf).1.stateIndex
          s.oauthState = none) := by
  constructor
  · intro hui
    simp only [deviceSubmit, if_neg hcode, deviceSubmitLocked, hui]
    simp
  · intro hui hdc hs hexp
    have hlocked : deviceSubmitLocked st (normalizeCode code) now =
        ({ st with deviceSessions := insertA st.deviceSessions dc ({ s with status := "expired", lastTouched := now }) }, dc,
         some ({ s with status := "expired", lastTouched := now })) := by
      simp only [deviceSubmitLocked, hui, Option.getD_some, if_neg hdc, hs]
      simp [touchSession, hexp]
    have hsub : deviceSubmit st code now googleConf githubConf =
        (removeSession ({ st with deviceSessions := insertA st.deviceSessions dc ({ s with status := "expired", lastTouched := now }) }) dc,
         SubmitResult.formError "Device code has expired. Restart the login from the CLI.") := by
      simp only [deviceSubmit, if_neg hcode, hlocked]
      simp
    rw [hsub]
    have hfound : lookupA (insertA st.deviceSessions dc
        ({ s with status := "expired", lastTouched := now })) dc =
        some ({ s with status := "expired", lastTouched := now }) := by
      rw [lookupA_insertA]
      simp
    refine ⟨rfl, ?_, ?_, ?_⟩
    · rw [sessions_removeSession]
      simp
    · simp only [removeSession, hfound, lookupA_eraseA]
      simp
    · simp only [removeSession, hfound, lookupA_eraseA]
      simp

/-- C4 witness: an unknown code leaves a one-session store untouched; a
known-but-expired code is consumed. -/
theorem C4_submit_unknown_or_expired_witness :
    deviceSubmit (storeOf (sessionOf "pending" 0 600 0 [])) "ZZZZ-ZZZZ" 100 true true =
      (storeOf (sessionOf "pending" 0 600 0 []),
       SubmitResult.formError "Invalid or expired device code. Please try again.") ∧
    lookupA (deviceSubmit (storeOf (sessionOf "pending" 0 600 0 []))
        "AB12-CD34" 700 true true).1.deviceSessions "dc1" = none := by
  have h1 := C4_submit_unknown_or_expired (storeOf (sessionOf "pending" 0 600 0 []))
    "ZZZZ-ZZZZ" "dc1" (sessionOf "pending" 0 600 0 []) 100 true true (by decide)
  have h2 := C4_submit_unknown_or_expired (storeOf (sessionOf "pending" 0 600 0 []))
    "AB12-CD34" "dc1" (sessionOf "pending" 0 600 0 []) 700 true true (by decide)
  exact ⟨h1.1 (by decide),
         (h2.2 (by decide) (by decide) (by decide) (by decide)).2.1⟩

/-- C4 counterexample: the claim as stated fails — submitting the user code
of a session whose `expiresAt` has passed removes that session from the
store, so the store is not left unchanged. -/
theorem C4_counterexample :
    lookupA (storeOf (sessionOf "pending" 0 600 0 [])).deviceSessions "dc1"
        = some (sessionOf "pending" 0 600 0 []) ∧
    lookupA (deviceSubmit (storeOf (sessionOf "pending" 0 600 0 []))
        "AB12-CD34" 700 true true).1.deviceSessions "dc1" = none ∧
    (deviceSubmit (storeOf (sessionOf "pending" 0 600 0 []))
        "AB12-CD34" 700 true true).1 ≠ storeOf (sessionOf "pending" 0 600 0 []) := by
  exact ⟨by decide, by decide, by decide⟩

/-! ### C9 -/

/-- C9 (amended): a start request whose provider (lower-cased) is neither
"google" nor "github" answers HTTP 400 and creates no session: the
resulting store is exactly the result of the opportunistic expiry sweep on
the prior store, so every session present afterwards was present before —
but the store is not necessarily *exactly* as before, because the sweep
that runs at the top of every start request may remove expired or stale
sessions. -/
theorem C9_unsupported_provider
    (st : Store) (provider : String) (now1 now2 : Int) (dc uc stv : String)
    (googleConf githubConf : Bool)
    (h1 : lowerStr provider ≠ "google") (h2 : lowerStr provider ≠ "github") :
    deviceStart st provider now1 now2 dc uc stv googleConf githubConf =
      (sessionCleanup st now1, StartResult.unsupportedProvider) ∧
    StartResult.unsupportedProvider.httpStatus = 400 ∧
    (∀ d s, lookupA (deviceStart st provider now1 now2 dc uc stv
        googleConf githubConf).1.deviceSessions d = some s →
      lookupA st.deviceSessions d = some s) := by
  have hstart : deviceStart st provider now1 now2 dc uc stv googleConf githubConf =
      (sessionCleanup st now1, StartResult.unsupportedProvider) := by
    simp only [deviceStart]
    rw [if_pos ⟨h1, h2⟩]
  refine ⟨hstart, rfl, ?_⟩
  intro d s hds
  rw [hstart] at hds
  exact cleanup_sessions_sub hds

/-- C9 witness: provider "Unsupported" against a store holding one live
session. -/
theorem C9_unsupported_provider_witness :
    deviceStart (storeOf (sessionOf "pending" 0 600 0 [])) "Unsupported"
        100 100 "d2" "EF56-GH78" "st2" true true =
      (sessionCleanup (storeOf (sessionOf "pending" 0 600 0 [])) 100,
       StartResult.unsupportedProvider) := by
  exact (C9_unsupported_provider (storeOf (sessionOf "pending" 0 600 0 []))
    "Unsupported" 100 100 "d2" "EF56-GH78" "st2" true true
    (by decide) (by decide)).1

/-- C9 counterexample: the claim as stated fails — an unsupported-provider
start against a store holding an expired pending session returns 400 but
the store is *not* exactly as before: the sweep at the top of the handler
removed the expired session. -/
theorem C9_counterexample :
    (deviceStart (storeOf (sessionOf "pending" 0 600 0 [])) "unsupported"
        700 700 "d2" "EF56-GH78" "st2" true true).2 = StartResult.unsupportedProvider ∧
    (deviceStart (storeOf (sessionOf "pending" 0 600 0 [])) "unsupported"
        700 700 "d2" "EF56-GH78" "st2" true true).1
      ≠ storeOf (sessionOf "pending" 0 600 0 []) := by
  exact ⟨by decide, by decide⟩

/-! ### C10 -/

/-- C10 (amended): polling a session whose status is none of the five
recognized values removes it from the store and answers HTTP 400 with
detail "Invalid device session state" — provided its `expiresAt` has not
passed at the sweep's clock reading; when it has, the opportunistic sweep
removes the session first and the poll answers 404 instead. -/
theorem C10_unknown_status_consumed
    (st : Store) (dc : String) (s : DeviceSession) (now1 now2 now1' now2' : Int)
    (hwf : WF st)
    (h : lookupA st.deviceSessions dc = some s)
    (h1 : s.status ≠ "pending") (h2 : s.status ≠ "authorizing")
    (h3 : s.status ≠ "complete") (h4 : s.status ≠ "error")
    (h5 : s.status ≠ "expired")
    (hexp : now1 < s.expiresAt) :
    devicePoll st dc now1 now2 =
      (removeSession (sessionCleanup st now1) dc, PollResult.invalidState) ∧
    PollResult.invalidState.httpStatus = 400 ∧
    PollResult.invalidState.detail = "Invalid device session state" ∧
    lookupA (devicePoll st dc now1 now2).1.deviceSessions dc = none ∧
    (devicePoll (devicePoll st dc now1 now2).1 dc now1' now2').2
        = PollResult.unknownDevice := by
  have hc : sweepCond s now1 = false := by
    simp [sweepCond, h3, h4, h5]
    omega
  have hsurv : lookupA (sessionCleanup st now1).deviceSessions dc = some s :=
    cleanup_lookup_surviving hwf h hc
  have hpoll : devicePoll st dc now1 now2 =
      (removeSession (sessionCleanup st now1) dc, PollResult.invalidState) := by
    simp only [devicePoll, getSessionCopy, hsurv]
    simp [h1, h2, h3, h4, h5]
  have hnone : lookupA (removeSession (sessionCleanup st now1) dc).deviceSessions dc
      = none := by
    rw [sessions_removeSession]
    simp
  rw [hpoll]
  exact ⟨rfl, rfl, rfl, hnone, by rw [poll_unknown_of_absent now1' now2' hnone]⟩

/-- C10 witness: a live session with status "weird". -/
theorem C10_unknown_status_consumed_witness :
    devicePoll (storeOf (sessionOf "weird" 0 600 0 [])) "dc1" 100 100 =
      (removeSession (sessionCleanup (storeOf (sessionOf "weird" 0 600 0 [])) 100) "dc1",
       PollResult.invalidState) := by
  exact (C10_unknown_status_consumed (storeOf (sessionOf "weird" 0 600 0 []))
    "dc1" (sessionOf "weird" 0 600 0 []) 100 100 110 110
    (by unfold WF; decide) (by decide) (by decide) (by decide) (by decide)
    (by decide) (by decide) (by decide)).1

/-- C10 counterexample: the claim as stated fails — an unrecognized-status
session whose `expiresAt` has passed is collected by the sweep, so the poll
answers 404 "Unknown device code", not 400 "Invalid device session
state". -/
theorem C10_counterexample :
    (devicePoll (storeOf (sessionOf "weird" 0 600 0 [])) "dc1" 700 700).2
        = PollResult.unknownDevice ∧
    (devicePoll (storeOf (sessionOf "weird" 0 600 0 [])) "dc1" 700 700).2
        ≠ PollResult.invalidState := by
  exact ⟨by decide, by decide⟩

/-! ### Session-field stability across store operations

`SessionsRefine st st'` says every session live in `st'` was live in `st`
under the same device code, with all identity fields (`expiresAt`,
`createdAt`, `deviceCode`, `userCode`, `normalizedUserCode`, `oauthState`,
`provider`) unchanged.  All store operations except `storeSession`
satisfy it. -/

def SessionsRefine (st st' : Store) : Prop :=
  ∀ dc s', lookupA st'.deviceSessions dc = some s' →
    ∃ s, lookupA st.deviceSessions dc = some s ∧
      s'.expiresAt = s.expiresAt ∧ s'.createdAt = s.createdAt ∧
      s'.deviceCode = s.deviceCode ∧ s'.userCode = s.userCode ∧
      s'.normalizedUserCode = s.normalizedUserCode ∧
      s'.oauthState = s.oauthState ∧ s'.provider = s.provider

theorem refine_refl (st : Store) : SessionsRefine st st :=
  fun _ s' h => ⟨s', h, rfl, rfl, rfl, rfl, rfl, rfl, rfl⟩

theorem refine_trans {st st' st'' : Store} (h1 : SessionsRefine st st')
    (h2 : SessionsRefine st' st'') : SessionsRefine st st'' := by
  intro dc s'' h
  obtain ⟨s', h', e1, e2, e3, e4, e5, e6, e7⟩ := h2 dc s'' h
  obtain ⟨s, hs, f1, f2, f3, f4, f5, f6, f7⟩ := h1 dc s' h'
  exact ⟨s, hs, e1.trans f1, e2.trans f2, e3.trans f3, e4.trans f4,
         e5.trans f5, e6.trans f6, e7.trans f7⟩

theorem refine_removeSession (st : Store) (d : String) :
    SessionsRefine st (removeSession st d) := by
  intro dc s' h
  rw [sessions_removeSession] at h
  by_cases hd : dc = d
  · rw [if_pos hd] at h
    exact absurd h (by simp)
  · rw [if_neg hd] at h
    exact ⟨s', h, rfl, rfl, rfl, rfl, rfl, rfl, rfl⟩

theorem refine_markSession (st : Store) (d status message : String) (now : Int) :
    SessionsRefine st (markSession st d status message now) := by
  intro dc s' h
  unfold markSession at h
  cases hd : lookupA st.deviceSessions d with
  | none =>
    rw [hd] at h
    exact ⟨s', h, rfl, rfl, rfl, rfl, rfl, rfl, rfl⟩
  | some s =>
    rw [hd] at h
    simp only [lookupA_insertA] at h
    by_cases hdc : d = dc
    · rw [if_pos hdc] at h
      injection h with h
      subst hdc
      exact ⟨s, hd, by rw [← h], by rw [← h], by rw [← h], by rw [← h],
             by rw [← h], by rw [← h], by rw [← h]⟩
    · rw [if_neg hdc] at h
      exact ⟨s', h, rfl, rfl, rfl, rfl, rfl, rfl, rfl⟩

theorem refine_setSessionTokens (st : Store) (d : String)
    (tokens : List (String × String)) (now : Int) :
    SessionsRefine st (setSessionTokens st d tokens now) := by
  intro dc s' h
  unfold setSessionTokens at h
  cases hd : lookupA st.deviceSessions d with
  | none =>
    rw [hd] at h
    exact ⟨s', h, rfl, rfl, rfl, rfl, rfl, rfl, rfl⟩
  | some s =>
    rw [hd] at h
    simp only [lookupA_insertA] at h
    by_cases hdc : d = dc
    · rw [if_pos hdc] at h
      injection h with h
      subst hdc
      exact ⟨s, hd, by rw [← h], by rw [← h], by rw [← h], by rw [← h],
             by rw [← h], by rw [← h], by rw [← h]⟩
    · rw [if_neg hdc] at h
      exact ⟨s', h, rfl, rfl, rfl, rfl, rfl, rfl, rfl⟩

theorem touchSession_fields (s : DeviceSession) (now : Int) :
    (touchSession s now).expiresAt = s.expiresAt ∧
    (touchSession s now).createdAt = s.createdAt ∧
    (touchSession s now).deviceCode = s.deviceCode ∧
    (touchSession s now).userCode = s.userCode ∧
    (touchSession s now).normalizedUserCode = s.normalizedUserCode ∧
    (touchSession s now).oauthState = s.oauthState ∧
    (touchSession s now).provider = s.provider ∧
    (touchSession s now).tokens = s.tokens ∧
    (touchSession s now).sessionError = s.sessionError := by
  unfold touchSession
  by_cases h1 : s.expiresAt ≤ now
  · simp [h1]
  · by_cases h2 : s.status = "pending" <;> simp [h1, h2]

/-- Status of a touched session, in terms of the original. -/
theorem touchSession_status (s : DeviceSession) (now : Int) :
    (touchSession s now).status =
      if s.expiresAt ≤ now then "expired"
      else if s.status = "pending" then "authorizing" else s.status := by
  unfold touchSession
  by_cases h1 : s.expiresAt ≤ now
  · simp [h1]
  · by_cases h2 : s.status = "pending" <;> simp [h1, h2]

theorem refine_submitLocked (st : Store) (normalized : String) (now : Int) :
    SessionsRefine st (deviceSubmitLocked st normalized now).1 := by
  intro dc s' h
  unfold deviceSubmitLocked at h
  by_cases h0 : (lookupA st.userIndex normalized).getD "" = ""
  · rw [if_pos h0] at h
    exact ⟨s', h, rfl, rfl, rfl, rfl, rfl, rfl, rfl⟩
  · rw [if_neg h0] at h
    cases hd : lookupA st.deviceSessions ((lookupA st.userIndex normalized).getD "") with
    | none =>
      rw [hd] at h
      exact ⟨s', h, rfl, rfl, rfl, rfl, rfl, rfl, rfl⟩
    | some s =>
      rw [hd] at h
      simp only [lookupA_insertA] at h
      by_cases hdc : (lookupA st.userIndex normalized).getD "" = dc
      · rw [if_pos hdc] at h
        injection h with h
        subst hdc
        obtain ⟨e1, e2, e3, e4, e5, e6, e7, _, _⟩ := touchSession_fields s now
        exact ⟨s, hd, by rw [← h]; exact e1, by rw [← h]; exact e2,
               by rw [← h]; exact e3, by rw [← h]; exact e4,
               by rw [← h]; exact e5, by rw [← h]; exact e6,
               by rw [← h]; exact e7⟩
      · rw [if_neg hdc] at h
        exact ⟨s', h, rfl, rfl, rfl, rfl, rfl, rfl, rfl⟩

theorem refine_foldl_remove (L : List String) (st : Store) :
    SessionsRefine st (L.foldl removeSession st) := by
  induction L generalizing st with
  | nil => exact refine_refl st
  | cons a L ih =>
    exact refine_trans (refine_removeSession st a) (ih (removeSession st a))

theorem refine_cleanup (st : Store) (now : Int) :
    SessionsRefine st (sessionCleanup st now) := by
  rw [sessionCleanup_eq]
  exact refine_foldl_remove _ st

theorem refine_poll (st : Store) (dc : String) (now1 now2 : Int) :
    SessionsRefine st (devicePoll st dc now1 now2).1 := by
  have hcl := refine_cleanup st now1
  simp only [devicePoll]
  cases hs : getSessionCopy (sessionCleanup st now1) dc with
  | none => exact hcl
  | some s =>
    simp only
    split
    · exact refine_trans hcl (refine_trans
        (refine_markSession _ dc "expired" "" now2) (refine_removeSession _ dc))
    · split
      · exact hcl
      · split
        · exact refine_trans hcl (refine_removeSession _ dc)
        · split
          · exact refine_trans hcl (refine_removeSession _ dc)
          · split
            · exact refine_trans hcl (refine_removeSession _ dc)
            · exact refine_trans hcl (refine_removeSession _ dc)

theorem refine_submit (st : Store) (code : String) (now : Int)
    (googleConf githubConf : Bool) :
    SessionsRefine st (deviceSubmit st code now googleConf githubConf).1 := by
  by_cases hc : code = ""
  · simp only [deviceSubmit, if_pos hc]
    exact refine_refl st
  · have hlock := refine_submitLocked st (normalizeCode code) now
    rcases hL : deviceSubmitLocked st (normalizeCode code) now with ⟨st1, d, so⟩
    rw [hL] at hlock
    simp only [deviceSubmit, if_neg hc, hL]
    cases so with
    | none => exact hlock
    | some s3 =>
      simp only
      split
      · exact refine_trans hlock (refine_removeSession st1 d)
      · split
        · exact hlock
        · split
          · split
            · exact refine_trans hlock (refine_markSession st1 d "error" _ now)
            · exact hlock
          · split
            · split
              · exact refine_trans hlock (refine_markSession st1 d "error" _ now)
              · exact hlock
            · exact refine_trans hlock (refine_markSession st1 d "error" _ now)

/-! ### C7 -/

/-- `expiresAt` and `createdAt` of any session surviving an operation are
unchanged by it. -/
def PreservesTimes (st st' : Store) : Prop :=
  ∀ dc s s', lookupA st.deviceSessions dc = some s →
    lookupA st'.deviceSessions dc = some s' →
    s'.expiresAt = s.expiresAt ∧ s'.createdAt = s.createdAt

theorem preservesTimes_of_refine {st st' : Store} (h : SessionsRefine st st') :
    PreservesTimes st st' := by
  intro dc s s' hs hs'
  obtain ⟨t, ht, e1, e2, _, _, _, _, _⟩ := h dc s' hs'
  rw [hs] at ht
  injection ht with ht
  subst ht
  exact ⟨e1, e2⟩

/-- C7: `expiresAt = createdAt + 600` holds for every session built by
`deviceStart`, and no subsequent operation — poll, submit (locked section or
whole handler), status update, token attach, removal, or the cleanup sweep —
ever changes the `expiresAt` or `createdAt` of a surviving session; a start
request (whose generated device code is fresh, as the 320-bit random draw
guarantees) also leaves every pre-existing session's deadline untouched. -/
theorem C7_expiry_fixed_at_creation :
    (∀ provider deviceCode userCode oauthState now,
      (newSession provider deviceCode userCode oauthState now).expiresAt =
        (newSession provider deviceCode userCode oauthState now).createdAt +
          deviceSessionTTL) ∧
    deviceSessionTTL = 600 ∧
    (∀ st d status msg now, PreservesTimes st (markSession st d status msg now)) ∧
    (∀ st d tokens now, PreservesTimes st (setSessionTokens st d tokens now)) ∧
    (∀ st d, PreservesTimes st (removeSession st d)) ∧
    (∀ st normalized now, PreservesTimes st (deviceSubmitLocked st normalized now).1) ∧
    (∀ st now, PreservesTimes st (sessionCleanup st now)) ∧
    (∀ st dc now1 now2, PreservesTimes st (devicePoll st dc now1 now2).1) ∧
    (∀ st code now googleConf githubConf,
      PreservesTimes st (deviceSubmit st code now googleConf githubConf).1) ∧
    (∀ st provider now1 now2 d u stv googleConf githubConf,
      lookupA st.deviceSessions d = none →
      PreservesTimes st
        (deviceStart st provider now1 now2 d u stv googleConf githubConf).1) := by
  refine ⟨fun _ _ _ _ _ => rfl, rfl, ?_, ?_, ?_, ?_, ?_, ?_, ?_, ?_⟩
  · exact fun st d status msg now =>
      preservesTimes_of_refine (refine_markSession st d status msg now)
  · exact fun st d tokens now =>
      preservesTimes_of_refine (refine_setSessionTokens st d tokens now)
  · exact fun st d => preservesTimes_of_refine (refine_removeSession st d)
  · exact fun st normalized now =>
      preservesTimes_of_refine (refine_submitLocked st normalized now)
  · exact fun st now => preservesTimes_of_refine (refine_cleanup st now)
  · exact fun st dc now1 now2 => preservesTimes_of_refine (refine_poll st dc now1 now2)
  · exact fun st code now gB gH =>
      preservesTimes_of_refine (refine_submit st code now gB gH)
  · intro st provider now1 now2 d u stv gB gH hfresh
    simp only [deviceStart]
    split
    · exact preservesTimes_of_refine (refine_cleanup st now1)
    · split
      · exact preservesTimes_of_refine (refine_cleanup st now1)
      · intro dc s s' hs hs'
        simp only [storeSession, newSession, lookupA_insertA] at hs'
        by_cases hd : d = dc
        · subst hd
          rw [hfresh] at hs
          exact absurd hs (by simp)
        · rw [if_neg hd] at hs'
          exact preservesTimes_of_refine (refine_cleanup st now1) dc s s' hs hs'

/-- C7 witness: a freshly created session has `expiresAt = createdAt + 600`,
and the locked submit section leaves a touched session's deadline
unchanged. -/
theorem C7_expiry_fixed_at_creation_witness :
    (newSession "google" "d1" "AB12-CD34" "st1" 5).expiresAt = 605 ∧
    (touchSession (sessionOf "pending" 0 600 0 []) 100).expiresAt = 600 := by
  have h := C7_expiry_fixed_at_creation
  constructor
  · rw [h.1 "google" "d1" "AB12-CD34" "st1" 5]
    decide
  · have h6 := h.2.2.2.2.2.1 (storeOf (sessionOf "pending" 0 600 0 [])) "AB12CD34" 100
    have hpair := h6 "dc1" (sessionOf "pending" 0 600 0 [])
      (touchSession (sessionOf "pending" 0 600 0 []) 100) (by decide) (by decide)
    rw [hpair.1]
    decide

/-! ### C6 -/

/-- The stored `deviceCode` field equals the key it is stored under (true of
every session the handlers ever store). -/
def KeyedRight (st : Store) : Prop :=
  ∀ dc s, lookupA st.deviceSessions dc = some s → s.deviceCode = dc

/-- No two distinct live sessions share a normalized user code or an OAuth
state. -/
def UniqueCodes (st : Store) : Prop :=
  ∀ dc1 dc2 s1 s2, lookupA st.deviceSessions dc1 = some s1 →
    lookupA st.deviceSessions dc2 = some s2 → dc1 ≠ dc2 →
    s1.normalizedUserCode ≠ s2.normalizedUserCode ∧ s1.oauthState ≠ s2.oauthState

theorem uniqueCodes_of_refine {st st' : Store} (hr : SessionsRefine st st')
    (h : UniqueCodes st) : UniqueCodes st' := by
  intro dc1 dc2 s1 s2 h1 h2 hne
  obtain ⟨t1, ht1, _, _, _, _, e1, f1, _⟩ := hr dc1 s1 h1
  obtain ⟨t2, ht2, _, _, _, _, e2, f2, _⟩ := hr dc2 s2 h2
  rw [e1, f1, e2, f2]
  exact h dc1 dc2 t1 t2 ht1 ht2 hne

theorem keyedRight_of_refine {st st' : Store} (hr : SessionsRefine st st')
    (h : KeyedRight st) : KeyedRight st' := by
  intro dc s' hs'
  obtain ⟨s, hs, _, _, edc, _, _, _, _⟩ := hr dc s' hs'
  rw [edc]
  exact h dc s hs

theorem keyedRight_storeSession {st : Store} (h : KeyedRight st) (s : DeviceSession) :
    KeyedRight (storeSession st s) := by
  intro dc t ht
  simp only [storeSession, lookupA_insertA] at ht
  by_cases hd : s.deviceCode = dc
  · rw [if_pos hd] at ht
    injection ht with ht
    rw [← ht]
    exact hd
  · rw [if_neg hd] at ht
    exact h dc t ht

theorem uniqueCodes_storeSession {st : Store} (h : UniqueCodes st) (s : DeviceSession)
    (hfresh : ∀ dc t, lookupA st.deviceSessions dc = some t →
      t.normalizedUserCode ≠ s.normalizedUserCode ∧ t.oauthState ≠ s.oauthState) :
    UniqueCodes (storeSession st s) := by
  intro dc1 dc2 s1 s2 h1 h2 hne
  simp only [storeSession, lookupA_insertA] at h1 h2
  by_cases hd1 : s.deviceCode = dc1
  · rw [if_pos hd1] at h1
    injection h1 with h1
    by_cases hd2 : s.deviceCode = dc2
    · exact absurd (hd1 ▸ hd2) hne
    · rw [if_neg hd2] at h2
      have hf := hfresh dc2 s2 h2
      rw [← h1]
      exact ⟨fun hh => hf.1 hh.symm, fun hh => hf.2 hh.symm⟩
  · rw [if_neg hd1] at h1
    by_cases hd2 : s.deviceCode = dc2
    · rw [if_pos hd2] at h2
      injection h2 with h2
      rw [← h2]
      exact hfresh dc1 s1 h1
    · rw [if_neg hd2] at h2
      exact h dc1 dc2 s1 s2 h1 h2 hne

/-- C6 (amended): device codes are unique among live sessions
unconditionally — the primary map is keyed by device code, and under the
(preserved) invariant that the stored `deviceCode` field equals its key, two
distinct live sessions have distinct device codes.  `normalizedUserCode`
and `state` are each unique among live sessions provided every create draws
codes distinct from those of all live sessions; the store itself performs
no collision check, so the property is conditional on the freshness of the
random draws (which the code does not enforce), and it is preserved by
every other store operation. -/
theorem C6_codes_unique :
    (∀ st, KeyedRight st → ∀ dc1 dc2 s1 s2,
      lookupA st.deviceSessions dc1 = some s1 →
      lookupA st.deviceSessions dc2 = some s2 → dc1 ≠ dc2 →
      s1.deviceCode ≠ s2.deviceCode) ∧
    (∀ st s, UniqueCodes st →
      (∀ dc t, lookupA st.deviceSessions dc = some t →
        t.normalizedUserCode ≠ s.normalizedUserCode ∧
        t.oauthState ≠ s.oauthState) →
      UniqueCodes (storeSession st s)) ∧
    (∀ st s, KeyedRight st → KeyedRight (storeSession st s)) ∧
    (∀ st d status msg now, UniqueCodes st →
      UniqueCodes (markSession st d status msg now)) ∧
    (∀ st d tokens now, UniqueCodes st →
      UniqueCodes (setSessionTokens st d tokens now)) ∧
    (∀ st d, UniqueCodes st → UniqueCodes (removeSession st d)) ∧
    (∀ st normalized now, UniqueCodes st →
      UniqueCodes (deviceSubmitLocked st normalized now).1) ∧
    (∀ st now, UniqueCodes st → UniqueCodes (sessionCleanup st now)) ∧
    (∀ st dc now1 now2, UniqueCodes st → UniqueCodes (devicePoll st dc now1 now2).1) ∧
    (∀ st code now googleConf githubConf, UniqueCodes st →
      UniqueCodes (deviceSubmit st code now googleConf githubConf).1) := by
  refine ⟨?_, ?_, ?_, ?_, ?_, ?_, ?_, ?_, ?_, ?_⟩
  · intro st hk dc1 dc2 s1 s2 h1 h2 hne
    rw [hk dc1 s1 h1, hk dc2 s2 h2]
    exact hne
  · exact fun st s h hf => uniqueCodes_storeSession h s hf
  · exact fun st s hk => keyedRight_storeSession hk s
  · exact fun st d status msg now =>
      uniqueCodes_of_refine (refine_markSession st d status msg now)
  · exact fun st d tokens now =>
      uniqueCodes_of_refine (refine_setSessionTokens st d tokens now)
  · exact fun st d => uniqueCodes_of_refine (refine_removeSession st d)
  · exact fun st normalized now =>
      uniqueCodes_of_refine (refine_submitLocked st normalized now)
  · exact fun st now => uniqueCodes_of_refine (refine_cleanup st now)
  · exact fun st dc now1 now2 => uniqueCodes_of_refine (refine_poll st dc now1 now2)
  · exact fun st code now gB gH => uniqueCodes_of_refine (refine_submit st code now gB gH)

/-- C6 witness: creating one session in the empty store yields a store with
unique codes. -/
theorem C6_codes_unique_witness :
    UniqueCodes (storeSession emptyStore (newSession "google" "d1" "AB12-CD34" "st1" 0)) := by
  refine C6_codes_unique.2.1 emptyStore (newSession "google" "d1" "AB12-CD34" "st1" 0)
    ?_ ?_
  · intro dc1 dc2 s1 s2 h1
    exact absurd h1 (by simp [emptyStore, lookupA])
  · intro dc t ht
    exact absurd ht (by simp [emptyStore, lookupA])

/-- C6 counterexample: the claim as stated fails — two create operations
whose random user-code draws collide produce two simultaneously live
sessions sharing a normalized user code; the store performs no collision
check. -/
theorem C6_counterexample :
    lookupA ((deviceStart (deviceStart emptyStore "google" 0 0 "d1" "AB12-CD34" "s1"
        true true).1 "google" 0 0 "d2" "AB12-CD34" "s2" true true).1).deviceSessions "d1"
      = some (newSession "google" "d1" "AB12-CD34" "s1" 0) ∧
    lookupA ((deviceStart (deviceStart emptyStore "google" 0 0 "d1" "AB12-CD34" "s1"
        true true).1 "google" 0 0 "d2" "AB12-CD34" "s2" true true).1).deviceSessions "d2"
      = some (newSession "google" "d2" "AB12-CD34" "s2" 0) ∧
    (newSession "google" "d1" "AB12-CD34" "s1" 0).normalizedUserCode =
      (newSession "google" "d2" "AB12-CD34" "s2" 0).normalizedUserCode ∧
    ¬ UniqueCodes (deviceStart (deviceStart emptyStore "google" 0 0 "d1" "AB12-CD34" "s1"
        true true).1 "google" 0 0 "d2" "AB12-CD34" "s2" true true).1 := by
  refine ⟨by decide, by decide, by decide, ?_⟩
  intro h
  have hpair := h "d1" "d2" (newSession "google" "d1" "AB12-CD34" "s1" 0)
    (newSession "google" "d2" "AB12-CD34" "s2" 0) (by decide) (by decide) (by decide)
  exact hpair.1 (by decide)

/-! ### C5 -/

/-- Any session reachable through the state index is pending or authorizing,
and the index entry is accurate. -/
def StateInv (st : Store) : Prop :=
  ∀ stv dc, lookupA st.stateIndex stv = some dc →
    ∃ s, lookupA st.deviceSessions dc = some s ∧ s.oauthState = stv ∧
      (s.status = "pending" ∨ s.status = "authorizing")

theorem removeSession_none {st : Store} {d : String}
    (h : lookupA st.deviceSessions d = none) : removeSession st d = st := by
  unfold removeSession
  rw [h]

theorem removeSession_some {st : Store} {d : String} {s : DeviceSession}
    (h : lookupA st.deviceSessions d = some s) :
    removeSession st d = Store.mk (eraseA st.deviceSessions d)
      (eraseA st.userIndex s.normalizedUserCode) (eraseA st.stateIndex s.oauthState) := by
  unfold removeSession
  rw [h]

theorem markSession_none {st : Store} {d : String} (status message : String) (now : Int)
    (h : lookupA st.deviceSessions d = none) :
    markSession st d status message now = st := by
  unfold markSession
  rw [h]

theorem markSession_some {st : Store} {d : String} {s : DeviceSession}
    (status message : String) (now : Int)
    (h : lookupA st.deviceSessions d = some s) :
    markSession st d status message now =
      Store.mk (insertA st.deviceSessions d ({ s with status := status, completedAt := now, sessionError := if message ≠ "" then message else s.sessionError }))
        st.userIndex (eraseA st.stateIndex s.oauthState) := by
  unfold markSession
  rw [h]

theorem setSessionTokens_none {st : Store} {d : String}
    (tokens : List (String × String)) (now : Int)
    (h : lookupA st.deviceSessions d = none) :
    setSessionTokens st d tokens now = st := by
  unfold setSessionTokens
  rw [h]

theorem setSessionTokens_some {st : Store} {d : String} {s : DeviceSession}
    (tokens : List (String × String)) (now : Int)
    (h : lookupA st.deviceSessions d = some s) :
    setSessionTokens st d tokens now =
      Store.mk (insertA st.deviceSessions d ({ s with status := "complete", tokens := tokens, completedAt := now }))
        st.userIndex (eraseA st.stateIndex s.oauthState) := by
  unfold setSessionTokens
  rw [h]

theorem stateInv_removeSession {st : Store} (h : StateInv st) (d : String) :
    StateInv (removeSession st d) := by
  intro stv dc hdc
  cases hd : lookupA st.deviceSessions d with
  | none =>
    rw [removeSession_none hd] at hdc ⊢
    exact h stv dc hdc
  | some sd =>
    rw [removeSession_some hd] at hdc ⊢
    simp only at hdc ⊢
    simp only [lookupA_eraseA] at hdc
    by_cases hst : stv = sd.oauthState
    · rw [if_pos hst] at hdc
      exact absurd hdc (by simp)
    · rw [if_neg hst] at hdc
      obtain ⟨s, hs, hses, hstat⟩ := h stv dc hdc
      have hdcd : dc ≠ d := by
        intro hh
        subst hh
        rw [hd] at hs
        injection hs with hs
        subst hs
        exact hst hses.symm
      refine ⟨s, ?_, hses, hstat⟩
      simp only [lookupA_eraseA, if_neg hdcd]
      exact hs

theorem stateInv_markSession {st : Store} (h : StateInv st)
    (d status message : String) (now : Int) :
    StateInv (markSession st d status message now) := by
  intro stv dc hdc
  cases hd : lookupA st.deviceSessions d with
  | none =>
    rw [markSession_none status message now hd] at hdc ⊢
    exact h stv dc hdc
  | some sd =>
    rw [markSession_some status message now hd] at hdc ⊢
    simp only at hdc ⊢
    simp only [lookupA_eraseA] at hdc
    by_cases hst : stv = sd.oauthState
    · rw [if_pos hst] at hdc
      exact absurd hdc (by simp)
    · rw [if_neg hst] at hdc
      obtain ⟨s, hs, hses, hstat⟩ := h stv dc hdc
      have hdcd : d ≠ dc := by
        intro hh
        subst hh
        rw [hd] at hs
        injection hs with hs
        subst hs
        exact hst hses.symm
      refine ⟨s, ?_, hses, hstat⟩
      simp only [lookupA_insertA, if_neg hdcd]
      exact hs

theorem stateInv_setSessionTokens {st : Store} (h : StateInv st)
    (d : String) (tokens : List (String × String)) (now : Int) :
    StateInv (setSessionTokens st d tokens now) := by
  intro stv dc hdc
  cases hd : lookupA st.deviceSessions d with
  | none =>
    rw [setSessionTokens_none tokens now hd] at hdc ⊢
    exact h stv dc hdc
  | some sd =>
    rw [setSessionTokens_some tokens now hd] at hdc ⊢
    simp only at hdc ⊢
    simp only [lookupA_eraseA] at hdc
    by_cases hst : stv = sd.oauthState
    · rw [if_pos hst] at hdc
      exact absurd hdc (by simp)
    · rw [if_neg hst] at hdc
      obtain ⟨s, hs, hses, hstat⟩ := h stv dc hdc
      have hdcd : d ≠ dc := by
        intro hh
        subst hh
        rw [hd] at hs
        injection hs with hs
        subst hs
        exact hst hses.symm
      refine ⟨s, ?_, hses, hstat⟩
      simp only [lookupA_insertA, if_neg hdcd]
      exact hs

theorem stateInv_storeSession {st : Store} (h : StateInv st) {s : DeviceSession}
    (hp : s.status = "pending")
    (hfresh : lookupA st.deviceSessions s.deviceCode = none) :
    StateInv (storeSession st s) := by
  intro stv dc hdc
  simp only [storeSession, lookupA_insertA] at hdc ⊢
  by_cases hst : s.oauthState = stv
  · rw [if_pos hst] at hdc
    injection hdc with hdc
    subst hdc
    refine ⟨s, ?_, hst, Or.inl hp⟩
    rw [if_pos rfl]
  · rw [if_neg hst] at hdc
    obtain ⟨t, ht, htes, htat⟩ := h stv dc hdc
    have hne : s.deviceCode ≠ dc := by
      intro hh
      rw [← hh, hfresh] at ht
      exact absurd ht (by simp)
    refine ⟨t, ?_, htes, htat⟩
    rw [if_neg hne]
    exact ht

theorem stateInv_foldl_remove (L : List String) {st : Store} (h : StateInv st) :
    StateInv (L.foldl removeSession st) := by
  induction L generalizing st with
  | nil => exact h
  | cons a L ih => exact ih (stateInv_removeSession h a)

theorem stateInv_cleanup {st : Store} (h : StateInv st) (now : Int) :
    StateInv (sessionCleanup st now) := by
  rw [sessionCleanup_eq]
  exact stateInv_foldl_remove _ h

theorem stateInv_poll {st : Store} (h : StateInv st) (dc : String) (now1 now2 : Int) :
    StateInv (devicePoll st dc now1 now2).1 := by
  have h1 := stateInv_cleanup h now1
  simp only [devicePoll]
  cases hs : getSessionCopy (sessionCleanup st now1) dc with
  | none => exact h1
  | some s =>
    simp only
    split
    · exact stateInv_removeSession (stateInv_markSession h1 dc "expired" "" now2) dc
    · split
      · exact h1
      · split
        · exact stateInv_removeSession h1 dc
        · split
          · exact stateInv_removeSession h1 dc
          · split
            · exact stateInv_removeSession h1 dc
            · exact stateInv_removeSession h1 dc

/-- The store halfway through `deviceSubmit` (after the locked section) still
satisfies the invariant when the touched session did not expire. -/
theorem stateInv_insert_touch {st : Store} (h : StateInv st) {d0 : String}
    {s : DeviceSession} (hlook : lookupA st.deviceSessions d0 = some s) (now : Int)
    (hne : (touchSession s now).status ≠ "expired") :
    StateInv (Store.mk (insertA st.deviceSessions d0 (touchSession s now))
      st.userIndex st.stateIndex) := by
  intro stv dc hdc
  simp only at hdc
  obtain ⟨t, ht, htes, htat⟩ := h stv dc hdc
  simp only [lookupA_insertA]
  by_cases hd : d0 = dc
  · subst hd
    rw [hlook] at ht
    injection ht with ht
    subst ht
    refine ⟨touchSession s now, by rw [if_pos rfl], ?_, ?_⟩
    · rw [(touchSession_fields s now).2.2.2.2.2.1]
      exact htes
    · right
      rw [touchSession_status] at hne ⊢
      by_cases hexp : s.expiresAt ≤ now
      · rw [if_pos hexp] at hne
        exact absurd rfl hne
      · rw [if_neg hexp]
        rcases htat with hp | ha
        · rw [if_pos hp]
        · rw [ha]
          simp
  · rw [if_neg hd]
    exact ⟨t, ht, htes, htat⟩

/-- The expired path of `deviceSubmit` (locked touch, then removal) restores
the invariant. -/
theorem stateInv_remove_insert_touch {st : Store} (h : StateInv st) {d0 : String}
    {s : DeviceSession} (hlook : lookupA st.deviceSessions d0 = some s) (now : Int) :
    StateInv (removeSession (Store.mk (insertA st.deviceSessions d0 (touchSession s now))
      st.userIndex st.stateIndex) d0) := by
  have hfound : lookupA (insertA st.deviceSessions d0 (touchSession s now)) d0
      = some (touchSession s now) := by
    rw [lookupA_insertA, if_pos rfl]
  intro stv dc hdc
  simp only [removeSession, hfound] at hdc ⊢
  simp only [lookupA_eraseA] at hdc
  by_cases hst : stv = (touchSession s now).oauthState
  · rw [if_pos hst] at hdc
    exact absurd hdc (by simp)
  · rw [if_neg hst] at hdc
    obtain ⟨t, ht, htes, htat⟩ := h stv dc hdc
    have hdcd : dc ≠ d0 := by
      intro hh
      subst hh
      rw [hlook] at ht
      injection ht with ht
      subst ht
      refine hst ?_
      rw [(touchSession_fields s now).2.2.2.2.2.1]
      exact htes.symm
    have hd0dc : ¬ d0 = dc := fun hh => hdcd hh.symm
    refine ⟨t, ?_, htes, htat⟩
    simp only [lookupA_eraseA, if_neg hdcd, lookupA_insertA, if_neg hd0dc]
    exact ht

theorem stateInv_submit {st : Store} (h : StateInv st) (code : String) (now : Int)
    (googleConf githubConf : Bool) :
    StateInv (deviceSubmit st code now googleConf githubConf).1 := by
  by_cases hc : code = ""
  · simp only [deviceSubmit, if_pos hc]
    exact h
  · simp only [deviceSubmit, if_neg hc]
    by_cases h0 : (lookupA st.userIndex (normalizeCode code)).getD "" = ""
    · simp only [deviceSubmitLocked, if_pos h0]
      exact h
    · simp only [deviceSubmitLocked, if_neg h0]
      cases hlook : lookupA st.deviceSessions
          ((lookupA st.userIndex (normalizeCode code)).getD "") with
      | none =>
        simp only
        exact h
      | some s =>
        simp only
        split
        · exact stateInv_remove_insert_touch h hlook now
        · rename_i hnexp
          have hmid := stateInv_insert_touch h hlook now hnexp
          split
          · exact hmid
          · split
            · split
              · exact stateInv_markSession hmid _ "error" _ now
              · exact hmid
            · split
              · split
                · exact stateInv_markSession hmid _ "error" _ now
                · exact hmid
              · exact stateInv_markSession hmid _ "error" _ now

/-- C5 (amended): `markSession` and `setSessionTokens` delete the session's
state-index entry in the same atomic (lock-protected) step as the status
change, and at whole-handler granularity the invariant "every session
reachable through the state index is pending or authorizing" is preserved by
session creation (with fresh codes), removal, status updates, token
attachment, the cleanup sweep, poll, and submit.  However, `deviceSubmit`'s
expiry path is an exception to the atomic-step claim: its locked section
sets the status to `expired` *without* removing the state-index entry — the
entry is only removed by the separate `removeSession` call made after the
lock is released, so between those two atomic steps an `expired` session is
transiently reachable through the state index (exhibited by the
counterexample). -/
theorem C5_state_index_invariant :
    (∀ st dc s status msg now, lookupA st.deviceSessions dc = some s →
      lookupA (markSession st dc status msg now).stateIndex s.oauthState = none) ∧
    (∀ st dc s tokens now, lookupA st.deviceSessions dc = some s →
      lookupA (setSessionTokens st dc tokens now).stateIndex s.oauthState = none) ∧
    (∀ st s, StateInv st → s.status = "pending" →
      lookupA st.deviceSessions s.deviceCode = none →
      StateInv (storeSession st s)) ∧
    (∀ st d, StateInv st → StateInv (removeSession st d)) ∧
    (∀ st d status msg now, StateInv st → StateInv (markSession st d status msg now)) ∧
    (∀ st d tokens now, StateInv st → StateInv (setSessionTokens st d tokens now)) ∧
    (∀ st now, StateInv st → StateInv (sessionCleanup st now)) ∧
    (∀ st dc now1 now2, StateInv st → StateInv (devicePoll st dc now1 now2).1) ∧
    (∀ st code now googleConf githubConf, StateInv st →
      StateInv (deviceSubmit st code now googleConf githubConf).1) := by
  refine ⟨?_, ?_, ?_, ?_, ?_, ?_, ?_, ?_, ?_⟩
  · intro st dc s status msg now h
    simp only [markSession, h, lookupA_eraseA]
    simp
  · intro st dc s tokens now h
    simp only [setSessionTokens, h, lookupA_eraseA]
    simp
  · exact fun st s h hp hf => stateInv_storeSession h hp hf
  · exact fun st d h => stateInv_removeSession h d
  · exact fun st d status msg now h => stateInv_markSession h d status msg now
  · exact fun st d tokens now h => stateInv_setSessionTokens h d tokens now
  · exact fun st now h => stateInv_cleanup h now
  · exact fun st dc now1 now2 h => stateInv_poll h dc now1 now2
  · exact fun st code now gB gH h => stateInv_submit h code now gB gH

/-- C5 witness: the invariant survives a full submit of a valid code against
a one-session store. -/
theorem C5_state_index_invariant_witness :
    StateInv (deviceSubmit (storeOf (sessionOf "pending" 0 600 0 []))
      "AB12-CD34" 100 true true).1 := by
  refine C5_state_index_invariant.2.2.2.2.2.2.2.2
    (storeOf (sessionOf "pending" 0 600 0 [])) "AB12-CD34" 100 true true ?_
  intro stv dc hdc
  simp only [storeOf, sessionOf, lookupA] at hdc
  by_cases hs1 : "st1" = stv
  · rw [if_pos hs1] at hdc
    injection hdc with hdc
    subst hdc
    subst hs1
    exact ⟨sessionOf "pending" 0 600 0 [], by decide, by decide, Or.inl (by decide)⟩
  · rw [if_neg hs1] at hdc
    exact absurd hdc (by simp)

/-! The atomic (single lock acquisition) steps of the session store, for the
lock-granularity counterexample.  A `create` step carries the session shape
`deviceStart` stores, together with the freshness of its random device
code. -/

inductive LockStep : Store → Store → Prop where
  | create (st : Store) (provider deviceCode userCode oauthState : String) (now : Int)
      (hfresh : lookupA st.deviceSessions deviceCode = none) :
      LockStep st (storeSession st (newSession provider deviceCode userCode oauthState now))
  | remove (st : Store) (deviceCode : String) : LockStep st (removeSession st deviceCode)
  | mark (st : Store) (deviceCode status message : String) (now : Int) :
      LockStep st (markSession st deviceCode status message now)
  | attach (st : Store) (deviceCode : String) (tokens : List (String × String)) (now : Int) :
      LockStep st (setSessionTokens st deviceCode tokens now)
  | submitLocked (st : Store) (normalized : String) (now : Int) :
      LockStep st (deviceSubmitLocked st normalized now).1

/-- Stores reachable from the empty store through lock-atomic steps. -/
def ReachableLock (st : Store) : Prop :=
  Relation.ReflTransGen LockStep emptyStore st

/-- C5 counterexample: the claim as stated fails at lock granularity — after
`deviceSubmit`'s locked section runs on a pending session whose deadline has
passed, the store (reachable by atomic steps: create, then the locked
section) holds a session with status `expired` that is still reachable
through the state index; the status change and the state-index removal are
*not* in the same atomic step. -/
theorem C5_counterexample :
    ∃ st : Store, ReachableLock st ∧
      lookupA st.stateIndex "s1" = some "d1" ∧
      ∃ s, lookupA st.deviceSessions "d1" = some s ∧ s.status = "expired" := by
  refine ⟨(deviceSubmitLocked (storeSession emptyStore
      (newSession "google" "d1" "AB12-CD34" "s1" 0)) (normalizeCode "AB12-CD34") 600).1,
    ?_, by decide,
    touchSession (newSession "google" "d1" "AB12-CD34" "s1" 0) 600, by decide, by decide⟩
  exact Relation.ReflTransGen.tail
    (Relation.ReflTransGen.single
      (LockStep.create emptyStore "google" "d1" "AB12-CD34" "s1" 0 (by decide)))
    (LockStep.submitLocked _ (normalizeCode "AB12-CD34") 600)

/-! ### C8 -/

theorem toNat_ofNat_valid {n : Nat} (h : n.isValidChar) : (Char.ofNat n).toNat = n := by
  unfold Char.ofNat
  rw [dif_pos h]
  rfl

theorem char_eq_of_toNat_eq {c d : Char} (h : c.toNat = d.toNat) : c = d :=
  Char.eq_of_val_eq (UInt32.eq_of_toBitVec_eq (BitVec.eq_of_toNat_eq h))

/-- `Char.toUpper` (= Go `strings.ToUpper` on the ASCII range) at the
codepoint level. -/
theorem toUpper_toNat (c : Char) :
    (Char.toUpper c).toNat =
      if 97 ≤ c.toNat ∧ c.toNat ≤ 122 then c.toNat - 32 else c.toNat := by
  unfold Char.toUpper
  by_cases h : c.toNat ≥ 97 ∧ c.toNat ≤ 122
  · rw [if_pos h, if_pos ⟨h.1, h.2⟩]
    exact toNat_ofNat_valid (Or.inl (by omega))
  · rw [if_neg h, if_neg h]

/-- Upper-casing never produces nor consumes a character below `'A'` (such
as `'-'` or `' '`). -/
theorem toUpper_eq_nonletter {c t : Char} (ht : t.toNat < 65) :
    Char.toUpper c = t ↔ c = t := by
  constructor
  · intro h
    have hn := congrArg Char.toNat h
    rw [toUpper_toNat] at hn
    by_cases hr : 97 ≤ c.toNat ∧ c.toNat ≤ 122
    · rw [if_pos hr] at hn
      omega
    · rw [if_neg hr] at hn
      exact char_eq_of_toNat_eq hn
  · intro h
    subst h
    apply char_eq_of_toNat_eq
    rw [toUpper_toNat]
    rw [if_neg (by omega)]

theorem toUpper_toUpper (c : Char) :
    Char.toUpper (Char.toUpper c) = Char.toUpper c := by
  apply char_eq_of_toNat_eq
  rw [toUpper_toNat, toUpper_toNat]
  split_ifs <;> omega

theorem stripChar_append (xs ys : List Char) (d : Char) :
    stripChar (xs ++ ys) d = stripChar xs d ++ stripChar ys d := by
  induction xs with
  | nil => rfl
  | cons c cs ih => by_cases h : c = d <;> simp [stripChar, h, ih]

theorem stripChar_self (cs : List Char) (d : Char) :
    stripChar (stripChar cs d) d = stripChar cs d := by
  induction cs with
  | nil => rfl
  | cons c cs ih => by_cases h : c = d <;> simp [stripChar, h, ih]

theorem stripChar_comm (cs : List Char) (a b : Char) :
    stripChar (stripChar cs a) b = stripChar (stripChar cs b) a := by
  induction cs with
  | nil => rfl
  | cons c cs ih =>
    by_cases h1 : c = a
    · subst h1
      by_cases h2 : c = b
      · subst h2
        simp [stripChar, ih]
      · simp [stripChar, h2, ih]
    · by_cases h2 : c = b
      · subst h2
        simp [stripChar, h1, ih]
      · simp [stripChar, h1, h2, ih]

theorem map_toUpper_map_toUpper (cs : List Char) :
    (cs.map Char.toUpper).map Char.toUpper = cs.map Char.toUpper := by
  induction cs with
  | nil => rfl
  | cons c cs ih => simp [toUpper_toUpper, ih]

theorem stripChar_map_toUpper {d : Char} (hd : d.toNat < 65) (cs : List Char) :
    (stripChar cs d).map Char.toUpper = stripChar (cs.map Char.toUpper) d := by
  induction cs with
  | nil => rfl
  | cons c cs ih =>
    by_cases h : c = d
    · subst h
      have hud : Char.toUpper c = c := (toUpper_eq_nonletter hd).mpr rfl
      simp [stripChar, hud, ih]
    · have h2 : Char.toUpper c ≠ d := fun hh => h ((toUpper_eq_nonletter hd).mp hh)
      simp [stripChar, h, h2, ih]

/-- Stripping separators commutes with upper-casing, so normalization can be
read as: upper-case first, then strip `'-'` and `' '`. -/
theorem normalizeChars_eq (cs : List Char) :
    normalizeChars cs = stripChar (stripChar (cs.map Char.toUpper) '-') ' ' := by
  unfold normalizeChars
  rw [@stripChar_map_toUpper ' ' (by decide) (stripChar cs '-'),
      @stripChar_map_toUpper '-' (by decide) cs]

theorem normalizeChars_upper_congr {cs ds : List Char}
    (h : cs.map Char.toUpper = ds.map Char.toUpper) :
    normalizeChars cs = normalizeChars ds := by
  rw [normalizeChars_eq, normalizeChars_eq, h]

theorem normalizeChars_idem (cs : List Char) :
    normalizeChars (normalizeChars cs) = normalizeChars cs := by
  have hm : (normalizeChars cs).map Char.toUpper = normalizeChars cs := by
    unfold normalizeChars
    rw [map_toUpper_map_toUpper]
  rw [normalizeChars_eq (normalizeChars cs), hm, normalizeChars_eq cs]
  rw [stripChar_comm (stripChar (cs.map Char.toUpper) '-') ' ' '-']
  rw [stripChar_self (cs.map Char.toUpper) '-']
  rw [stripChar_self (stripChar (cs.map Char.toUpper) '-') ' ']

theorem normalizeChars_insert (xs ys : List Char) {c : Char}
    (hc : c = '-' ∨ c = ' ') :
    normalizeChars (xs ++ c :: ys) = normalizeChars (xs ++ ys) := by
  unfold normalizeChars
  rcases hc with h | h <;> subst h <;> simp [stripChar_append, stripChar]

theorem normalizeCode_idem (s : String) :
    normalizeCode (normalizeCode s) = normalizeCode s := by
  unfold normalizeCode
  exact congrArg String.mk (normalizeChars_idem s.data)

/-- C8 (amended): `normalizeCode` upper-cases and removes all hyphens and
*space characters* (U+0020) — not all whitespace: a tab survives, as the
counterexample shows.  It is idempotent; inserting a hyphen or a space
anywhere never changes the result; two strings that agree after per-character
upper-casing normalize identically (case-insensitivity); the three spec
variants of a user code normalize to the same string; and `deviceSubmit`'s
locked lookup depends on the submitted code only through `normalizeCode`, so
any such variants resolve to the same session. -/
theorem C8_normalize_formatting_invariant :
    (∀ s : String, normalizeCode (normalizeCode s) = normalizeCode s) ∧
    (∀ xs ys : List Char, ∀ c : Char, c = '-' ∨ c = ' ' →
      normalizeChars (xs ++ c :: ys) = normalizeChars (xs ++ ys)) ∧
    (∀ cs ds : List Char, cs.map Char.toUpper = ds.map Char.toUpper →
      normalizeChars cs = normalizeChars ds) ∧
    (normalizeCode "ab12cd34" = "AB12CD34" ∧ normalizeCode "AB12-CD34" = "AB12CD34" ∧
      normalizeCode "ab12 cd34" = "AB12CD34") ∧
    (∀ st : Store, ∀ c1 c2 : String, ∀ now : Int,
      normalizeCode c1 = normalizeCode c2 →
      deviceSubmitLocked st (normalizeCode c1) now =
        deviceSubmitLocked st (normalizeCode c2) now) := by
  refine ⟨normalizeCode_idem, fun xs ys c hc => normalizeChars_insert xs ys hc,
    fun cs ds h => normalizeChars_upper_congr h, ⟨by decide, by decide, by decide⟩,
    fun st c1 c2 now h => by rw [h]⟩

/-- C8 witness: idempotence and separator-insertion invariance at concrete
inputs. -/
theorem C8_normalize_formatting_invariant_witness :
    normalizeCode (normalizeCode "ab12cd34") = normalizeCode "ab12cd34" ∧
    normalizeChars ['a', '-', 'b'] = normalizeChars ['a', 'b'] := by
  exact ⟨C8_normalize_formatting_invariant.1 "ab12cd34",
    C8_normalize_formatting_invariant.2.1 ['a'] ['b'] '-' (Or.inl rfl)⟩

/-- C8 counterexample: the claim as stated fails — a tab is whitespace but is
not removed by `normalizeCode`, which only strips hyphens and the space
character. -/
theorem C8_counterexample :
    normalizeCode "a\tb" = "A\tB" ∧
    Char.isWhitespace '\t' = true ∧
    '\t' ∈ (normalizeCode "a\tb").data := by
  exact ⟨by decide, by decide, by decide⟩

end SuperboxAuth
